import Mathlib

/-!
Verification of the toykv durability layer: the record codec in
src/kvrecord.rs and the write-ahead log manager in src/wal.rs.

Byte streams are modelled as lists of natural numbers (each element is one
byte of the stream; the serializers only ever emit values below 256, and the
readers pass key and value bytes through unchanged).  Machine integers are
modelled as naturals with explicit reduction modulo 2 to the width where the
Rust code performs a truncating cast.  Fallible operations return Except.
Rust assertion failures (assert_eq!, which aborts the process) are modelled
as distinguished error values marked by WalErr.isPanic, so that the embedding
stays total while keeping panics separate from typed errors.
-/

namespace ToyKV

/-- The magic byte b of kvrecord.rs, MAGIC: u8 = b'w' = 119. -/
def MAGIC : Nat := 119

/-- OP_SET: u8 = 1 from kvrecord.rs. -/
def OP_SET : Nat := 1

/-- WAL_MAGIC: u8 = b'w' = 119 from wal.rs. -/
def WAL_MAGIC : Nat := 119

/-- u16::from_be_bytes on two bytes. -/
def u16_be (b0 b1 : Nat) : Nat := b0 * 256 + b1

/-- u32::from_be_bytes on four bytes. -/
def u32_be (b0 b1 b2 b3 : Nat) : Nat := ((b0 * 256 + b1) * 256 + b2) * 256 + b3

/-- (n as u16).to_be_bytes: the truncating cast to 16 bits followed by
big-endian byte extraction. -/
def to_be2 (n : Nat) : List Nat := [n / 256 % 256, n % 256]

/-- (n as u32).to_be_bytes: truncation to 32 bits, big-endian. -/
def to_be4 (n : Nat) : List Nat :=
  [n / 16777216 % 256, n / 65536 % 256, n / 256 % 256, n % 256]

/-- Failure outcomes of the WAL layer.  The panic constructors model the
assert_eq! calls in the source, which abort the process; badWALState and
badWALSeq are the ToyKVError variants constructed in wal.rs; formatError,
truncationFault and ioError are the remaining error kinds named by the
design (the ToyKVError enum itself lives outside the given sources). -/
inductive WalErr where
  | panicMagic
  | panicOp
  | panicPad
  | formatError
  | truncationFault
  | badWALState
  | badWALSeq (expected : Nat) (actual : Nat)
  | ioError
  deriving DecidableEq, Repr

/-- Whether an error value models a Rust panic (a fatal assertion), as
opposed to a typed error returned to the caller. -/
def WalErr.isPanic : WalErr → Bool
  | .panicMagic => true
  | .panicOp => true
  | .panicPad => true
  | _ => false

/-- KVRecord from src/kvrecord.rs: the decoded form owning key and value. -/
structure KVRecord where
  key : List Nat
  value : List Nat
  deriving DecidableEq, Repr

/-- KVRecord::read_one from src/kvrecord.rs.  Reads a 16 byte header
(magic, seq, op, keylen, valuelen, pad); a stream shorter than 16 bytes is
the clean end-of-log sentinel Ok(None).  assert_eq! guards magic, op and
pad (modelled as panic errors).  The body is read with
take(keylen).read_to_end, which returns however many bytes remain (at most
keylen) without signalling a short read, and likewise for the value; the
function performs no check that the body was complete.  Returns the decoded
record together with the unconsumed rest of the stream. -/
def KVRecord.read_one (s : List Nat) :
    Except WalErr (Option (KVRecord × List Nat)) :=
  match s with
  | m :: _s1 :: _s2 :: _s3 :: _s4 :: op :: k1 :: k2 :: v1 :: v2 :: v3 :: v4 ::
      p1 :: p2 :: p3 :: p4 :: rest =>
    if m ≠ MAGIC then .error .panicMagic
    else if op ≠ OP_SET then .error .panicOp
    else if u32_be p1 p2 p3 p4 ≠ 0 then .error .panicPad
    else
      let keylen := u16_be k1 k2
      let valuelen := u32_be v1 v2 v3 v4
      .ok (some ({ key := rest.take keylen,
                   value := (rest.drop keylen).take valuelen },
                 (rest.drop keylen).drop valuelen))
  | _ => .ok none

/-- WriteKVRecord from src/kvrecord.rs: the write-optimised record. -/
structure WriteKVRecord where
  seq : Nat
  op : Nat
  key : List Nat
  value : List Nat

/-- WriteKVRecord::serialize from src/kvrecord.rs: magic, seq (u32 BE),
op (u8), key length as u16 BE (a truncating cast), value length as u32 BE,
four zero pad bytes, then the key and value bytes. -/
def WriteKVRecord.serialize (r : WriteKVRecord) : List Nat :=
  [MAGIC] ++ to_be4 r.seq ++ [r.op % 256] ++ to_be2 r.key.length ++
    to_be4 r.value.length ++ to_be4 0 ++ r.key ++ r.value

/-- Modelled from the spec: WALSync, the durability policy supplied at
construction (lib.rs is not among the given sources).  Spec section 6
names the two policies full-sync and default OS buffering. -/
inductive WALSync where
  | Full
  | Default
  deriving DecidableEq, Repr

/-- Modelled from the spec: KVWriteRecord::serialize, the payload codec
that WALRecord::write_one in wal.rs embeds.  The kvrecord.rs revision that
defines KVWriteRecord and KVValue is not among the given sources; by spec
sections 4.1 and 4.2 the Record Codec payload is magic(1), keylen(2,
big-endian), valuelen(4, big-endian), pad(4, always zero), key bytes,
value bytes, while sequence and operation live in the Log Envelope. -/
def KVWriteRecord.serialize (key value : List Nat) : List Nat :=
  [MAGIC] ++ to_be2 key.length ++ to_be4 value.length ++ to_be4 0 ++ key ++ value

/-- Modelled from the spec: the payload-side KVRecord::read_one that
WALRecord::read_one in wal.rs delegates to (missing from the given
sources; the kvrecord.rs revision provided is the standalone one whose
header also carries seq and op).  Spec section 4.1: a header shorter than
the fixed size is the clean end-of-log sentinel; a wrong magic byte or a
non-zero pad after a present header is a corruption fault; after a valid
header exactly keylen then exactly valuelen bytes are read, and a stream
ending mid-key or mid-value is a corruption fault distinct from the clean
end (TruncationFault). -/
def KVRecord.read_one_wal (s : List Nat) :
    Except WalErr (Option (KVRecord × List Nat)) :=
  match s with
  | m :: k1 :: k2 :: v1 :: v2 :: v3 :: v4 :: p1 :: p2 :: p3 :: p4 :: rest =>
    if m ≠ MAGIC then .error .formatError
    else if u32_be p1 p2 p3 p4 ≠ 0 then .error .formatError
    else if rest.length < u16_be k1 k2 + u32_be v1 v2 v3 v4 then
      .error .truncationFault
    else
      .ok (some ({ key := rest.take (u16_be k1 k2),
                   value := (rest.drop (u16_be k1 k2)).take (u32_be v1 v2 v3 v4) },
                 (rest.drop (u16_be k1 k2)).drop (u32_be v1 v2 v3 v4)))
  | _ => .ok none

/-- WALRecord from wal.rs: a decoded log-envelope entry. -/
structure WALRecord where
  seq : Nat
  op : Nat
  key : List Nat
  value : List Nat
  deriving DecidableEq, Repr

/-- WALRecord::read_one from wal.rs: reads the 6 byte envelope header
(magic, u32 seq big-endian, u8 op); fewer than 6 bytes is the clean
end-of-log sentinel Ok(None); assert_eq! guards the magic byte (modelled
as a panic error); the op byte is read without a check here (the replay
loop checks it); then the embedded record codec reads the payload. -/
def WALRecord.read_one (s : List Nat) :
    Except WalErr (Option (WALRecord × List Nat)) :=
  match s with
  | m :: a1 :: a2 :: a3 :: a4 :: op :: rest =>
    if m ≠ WAL_MAGIC then .error .panicMagic
    else
      match KVRecord.read_one_wal rest with
      | .error e => .error e
      | .ok none => .ok none
      | .ok (some (kv, rest2)) =>
          .ok (some ({ seq := u32_be a1 a2 a3 a4, op := op,
                       key := kv.key, value := kv.value }, rest2))
  | _ => .ok none

/-- WALRecord::write_one from wal.rs: one envelope entry, WAL_MAGIC, the
u32 sequence big-endian, OP_SET, then the serialized payload, emitted as a
single buffer so that one entry is one write call. -/
def WALRecord.write_one (seq : Nat) (key value : List Nat) : List Nat :=
  [WAL_MAGIC] ++ to_be4 seq ++ [OP_SET] ++ KVWriteRecord.serialize key value

/-- The recovered index (the BTreeMap of wal.rs) rendered as an
association list: insert replaces any existing binding of the key, get
returns the current binding. -/
abbrev Memtable := List (List Nat × List Nat)

/-- BTreeMap::insert: bind k to v, superseding any earlier binding. -/
def Memtable.insert (mt : Memtable) (k v : List Nat) : Memtable :=
  (k, v) :: mt.filter (fun kv => decide (kv.1 ≠ k))

/-- BTreeMap lookup. -/
def Memtable.get (mt : Memtable) (k : List Nat) : Option (List Nat) :=
  (mt.find? (fun kv => decide (kv.1 = k))).map (fun kv => kv.2)

/-- WAL from wal.rs: the Manager state.  The Option<File> handle is
modelled by the Bool f (whether a handle is open); the path and the on
disk bytes are passed to the operations explicitly. -/
structure WAL where
  f : Bool
  sync : WALSync
  nextseq : Nat
  wal_writes : Nat
  deriving DecidableEq, Repr

/-- new from wal.rs: no open handle, nextseq 0, zero writes. -/
def WAL.new (sync : WALSync) : WAL :=
  { f := false, sync := sync, nextseq := 0, wal_writes := 0 }

/-- A Manager whose next-sequence counter starts at 0 with an open handle:
the state replay of an empty log leaves behind, and the state reset
restores. -/
def WAL.fresh (sync : WALSync) : WAL :=
  { f := true, sync := sync, nextseq := 0, wal_writes := 0 }

/-- The record loop of WAL::replay from wal.rs: read one envelope record
at a time; a sequence number different from the expected next sequence
aborts with BadWALSeq carrying expected and actual; assert_eq! checks the
op (modelled as a panic error); an accepted record is inserted into the
memtable, nextseq becomes seq + 1, wal_writes and the replayed-record
count cnt advance by one; the clean end-of-log sentinel stops the loop.
Returns (memtable, nextseq, wal_writes, cnt). -/
def replayLoop (s : List Nat) (nextseq writes cnt : Nat) (mt : Memtable) :
    Except WalErr (Memtable × Nat × Nat × Nat) :=
  match h : WALRecord.read_one s with
  | .error e => .error e
  | .ok none => .ok (mt, nextseq, writes, cnt)
  | .ok (some (wr, rest)) =>
    if wr.seq ≠ nextseq then .error (.badWALSeq nextseq wr.seq)
    else if wr.op ≠ OP_SET then .error .panicOp
    else replayLoop rest (wr.seq + 1) (writes + 1) (cnt + 1)
           (Memtable.insert mt wr.key wr.value)
termination_by s.length
decreasing_by
  rw [WALRecord.read_one.eq_def] at h
  split at h
  · split at h
    · exact absurd h (by simp)
    · split at h
      · exact absurd h (by simp)
      · exact absurd h (by simp)
      · rename_i kv rest2 heq
        simp only [Except.ok.injEq, Option.some.injEq, Prod.mk.injEq] at h
        obtain ⟨-, hr⟩ := h
        subst hr
        rw [KVRecord.read_one_wal.eq_def] at heq
        split at heq
        · split at heq
          · exact absurd heq (by simp)
          · split at heq
            · exact absurd heq (by simp)
            · split at heq
              · exact absurd heq (by simp)
              · simp only [Except.ok.injEq, Option.some.injEq,
                  Prod.mk.injEq] at heq
                obtain ⟨-, hr2⟩ := heq
                subst hr2
                simp [List.length_drop]
                omega
        · exact absurd heq (by simp)
  · exact absurd h (by simp)

/-- WAL::replay from wal.rs: a second replay on a Manager with an open
handle is a bad-state error; otherwise the log bytes are streamed from the
start through the record loop beginning at the current nextseq; on success
the handle is retained (f becomes true) and nextseq and wal_writes take
the values the loop reached. -/
def WAL.replay (w : WAL) (file : List Nat) : Except WalErr (Memtable × WAL) :=
  if w.f then .error .badWALState
  else
    match replayLoop file w.nextseq w.wal_writes 0 [] with
    | .error e => .error e
    | .ok (mt, nextseq, writes, _cnt) =>
        .ok (mt, { w with f := true, nextseq := nextseq, wal_writes := writes })

/-- The outcomes of the two fallible I/O calls inside WAL::write: whether
the append (write_all) succeeds and whether sync_all succeeds. -/
structure WriteEnv where
  appendOk : Bool
  syncOk : Bool
  deriving DecidableEq, Repr

/-- WAL::write from wal.rs: a bad-state error when no handle is open;
otherwise the current nextseq is assigned as the sequence, one envelope
entry is appended (a failing append surfaces the I/O error with the state
untouched), wal_writes increments, under the Full sync policy a failing
sync_all surfaces the I/O error, and only after everything succeeded does
nextseq increment.  Returns (result, manager, file bytes). -/
def WAL.write (w : WAL) (file : List Nat) (key value : List Nat)
    (env : WriteEnv) : Except WalErr Unit × WAL × List Nat :=
  if w.f = false then (.error .badWALState, w, file)
  else
    let seq := w.nextseq
    if env.appendOk = false then (.error .ioError, w, file)
    else
      let file2 := file ++ WALRecord.write_one seq key value
      let w2 := { w with wal_writes := w.wal_writes + 1 }
      if w.sync = WALSync.Full ∧ env.syncOk = false then (.error .ioError, w2, file2)
      else (.ok (), { w2 with nextseq := w2.nextseq + 1 }, file2)

/-- WAL::reset from wal.rs: a bad-state error when no handle is open;
otherwise the handle is dropped, the file removed and recreated empty
(both filesystem calls folded into ioOk; on failure the handle is already
gone, as in the source where f is set to None first), and nextseq and
wal_writes return to zero. -/
def WAL.reset (w : WAL) (file : List Nat) (ioOk : Bool) :
    Except WalErr Unit × WAL × List Nat :=
  if w.f = false then (.error .badWALState, w, file)
  else if ioOk = false then (.error .ioError, { w with f := false }, file)
  else (.ok (), { w with f := true, nextseq := 0, wal_writes := 0 }, [])

/-- A run of consecutive WAL::write calls whose I/O all succeeds, stopping
at the first failure. -/
def WAL.writeAll : WAL → List Nat → List (List Nat × List Nat) →
    Except WalErr Unit × WAL × List Nat
  | w, file, [] => (.ok (), w, file)
  | w, file, kv :: t =>
    match WAL.write w file kv.1 kv.2 { appendOk := true, syncOk := true } with
    | (.ok _, w2, file2) => WAL.writeAll w2 file2 t
    | r => r

/-- The bytes of a log holding one envelope entry per pair, with sequence
numbers counting up from n in list order. -/
def walFileFrom (n : Nat) : List (List Nat × List Nat) → List Nat
  | [] => []
  | kv :: t => WALRecord.write_one n kv.1 kv.2 ++ walFileFrom (n + 1) t

/-- Folding the record loop inserts over a list of pairs. -/
def mtInsertAll (mt : Memtable) (kvs : List (List Nat × List Nat)) : Memtable :=
  kvs.foldl (fun m kv => Memtable.insert m kv.1 kv.2) mt

/-- The value of the last pair in kvs whose key is k, if any: with
sequence numbers assigned in list order this is the write with the largest
sequence number for k. -/
def lastWrittenValue (kvs : List (List Nat × List Nat)) (k : List Nat) :
    Option (List Nat) :=
  kvs.foldl (fun acc kv => if kv.1 = k then some kv.2 else acc) none

theorem u16_be_split (n : Nat) (h : n ≤ 65535) :
    u16_be (n / 256 % 256) (n % 256) = n := by
  unfold u16_be; omega

theorem u32_be_split (n : Nat) (h : n ≤ 4294967295) :
    u32_be (n / 16777216 % 256) (n / 65536 % 256) (n / 256 % 256) (n % 256) = n := by
  unfold u32_be; omega

theorem take_len_append (l₁ l₂ : List Nat) : (l₁ ++ l₂).take l₁.length = l₁ := by
  induction l₁ with
  | nil => rfl
  | cons a t ih => simp [List.take, ih]

theorem drop_len_append (l₁ l₂ : List Nat) : (l₁ ++ l₂).drop l₁.length = l₂ := by
  induction l₁ with
  | nil => rfl
  | cons a t ih => simp [List.drop, ih]

theorem u32_be_to_be4 (n : Nat) :
    u32_be (n / 16777216 % 256) (n / 65536 % 256) (n / 256 % 256) (n % 256) =
      n % 4294967296 := by
  unfold u32_be; omega

theorem replayLoop_eq_error (s : List Nat) (n w c : Nat) (mt : Memtable)
    (e : WalErr) (h : WALRecord.read_one s = .error e) :
    replayLoop s n w c mt = .error e := by
  rw [replayLoop.eq_def]
  split <;> simp_all

theorem replayLoop_eq_none (s : List Nat) (n w c : Nat) (mt : Memtable)
    (h : WALRecord.read_one s = .ok none) :
    replayLoop s n w c mt = .ok (mt, n, w, c) := by
  rw [replayLoop.eq_def]
  split <;> simp_all

theorem replayLoop_eq_some (s rest : List Nat) (wr : WALRecord)
    (n w c : Nat) (mt : Memtable)
    (h : WALRecord.read_one s = .ok (some (wr, rest))) :
    replayLoop s n w c mt =
      if wr.seq ≠ n then .error (.badWALSeq n wr.seq)
      else if wr.op ≠ OP_SET then .error .panicOp
      else replayLoop rest (wr.seq + 1) (w + 1) (c + 1)
             (Memtable.insert mt wr.key wr.value) := by
  rw [replayLoop.eq_def]
  split <;> simp_all

theorem read_one_write_one (n2 : Nat) (key value rest : List Nat)
    (hk : key.length ≤ 65535) (hv : value.length ≤ 4294967295) :
    WALRecord.read_one (WALRecord.write_one n2 key value ++ rest) =
      .ok (some ({ seq := n2 % 4294967296, op := OP_SET,
                   key := key, value := value }, rest)) := by
  show WALRecord.read_one
      (([WAL_MAGIC] ++ to_be4 n2 ++ [OP_SET] ++
        ([MAGIC] ++ to_be2 key.length ++ to_be4 value.length ++ to_be4 0 ++
          key ++ value)) ++ rest) = _
  simp only [to_be2, to_be4, WAL_MAGIC, MAGIC, OP_SET, List.cons_append,
    List.nil_append, List.append_assoc]
  have hpad : u32_be 0 0 0 0 = 0 := rfl
  simp only [WALRecord.read_one, KVRecord.read_one_wal]
  rw [u16_be_split key.length hk, u32_be_split value.length hv,
    u32_be_to_be4 n2]
  rw [take_len_append, drop_len_append, take_len_append, drop_len_append]
  have hlen : ¬ ((key ++ (value ++ rest)).length <
      key.length + value.length) := by
    rw [List.length_append, List.length_append]
    omega
  norm_num [hpad, hlen, WAL_MAGIC, MAGIC]

theorem replayLoop_walFileFrom (kvs : List (List Nat × List Nat))
    (n w c : Nat) (mt : Memtable)
    (hb : ∀ kv ∈ kvs, (kv.1 : List Nat).length ≤ 65535 ∧
      (kv.2 : List Nat).length ≤ 4294967295)
    (hn : n + kvs.length ≤ 4294967296) :
    replayLoop (walFileFrom n kvs) n w c mt =
      .ok (mtInsertAll mt kvs, n + kvs.length, w + kvs.length,
        c + kvs.length) := by
  induction kvs generalizing n w c mt with
  | nil =>
    rw [walFileFrom, replayLoop_eq_none [] n w c mt rfl]
    simp [mtInsertAll]
  | cons kv t ih =>
    obtain ⟨hk, hv⟩ := hb kv (by simp)
    rw [walFileFrom,
      replayLoop_eq_some _ _ _ _ _ _ _ (read_one_write_one n kv.1 kv.2 _ hk hv)]
    have hmod : n % 4294967296 = n := by
      apply Nat.mod_eq_of_lt
      simp only [List.length_cons] at hn
      omega
    rw [if_neg (by simp [hmod]), if_neg (by simp)]
    dsimp only
    rw [hmod]
    rw [ih (n + 1) (w + 1) (c + 1) (Memtable.insert mt kv.1 kv.2)
        (fun x hx => hb x (List.mem_cons_of_mem kv hx))
        (by simp only [List.length_cons] at hn ⊢; omega)]
    simp [mtInsertAll, Nat.add_comm, Nat.add_left_comm, Nat.add_assoc]

theorem writeAll_ok (kvs : List (List Nat × List Nat)) (sync : WALSync)
    (n w : Nat) (file : List Nat) :
    WAL.writeAll { f := true, sync := sync, nextseq := n, wal_writes := w }
        file kvs =
      (.ok (), { f := true, sync := sync, nextseq := n + kvs.length,
                 wal_writes := w + kvs.length },
        file ++ walFileFrom n kvs) := by
  induction kvs generalizing n w file with
  | nil => simp [WAL.writeAll, walFileFrom]
  | cons kv t ih =>
    rw [WAL.writeAll]
    simp only [WAL.write]
    norm_num
    rw [ih]
    rw [walFileFrom]
    simp [List.append_assoc, Nat.add_comm, Nat.add_left_comm, Nat.add_assoc]

/-- Claim C5: for every key of length at most 65535 bytes and value of
length at most 4294967295 bytes, serializing a record with
WriteKVRecord::serialize and decoding the buffer with KVRecord::read_one
succeeds and reproduces the original key and value bytes exactly. -/
theorem c5_serialize_read_roundtrip (seq : Nat) (key value : List Nat)
    (hk : key.length ≤ 65535) (hv : value.length ≤ 4294967295) :
    KVRecord.read_one
        (WriteKVRecord.serialize { seq := seq, op := OP_SET, key := key, value := value }) =
      .ok (some ({ key := key, value := value }, [])) := by
  show KVRecord.read_one
      ([MAGIC] ++ to_be4 seq ++ [OP_SET % 256] ++ to_be2 key.length ++
        to_be4 value.length ++ to_be4 0 ++ key ++ value) = _
  simp only [to_be2, to_be4, MAGIC, OP_SET, List.cons_append, List.nil_append,
    List.append_assoc]
  unfold KVRecord.read_one
  have hpad : u32_be 0 0 0 0 = 0 := rfl
  norm_num [MAGIC, OP_SET, hpad]
  rw [u16_be_split key.length hk, u32_be_split value.length hv]
  refine ⟨⟨take_len_append key value, ?_⟩, ?_⟩
  · rw [drop_len_append, List.take_length]
  · omega

theorem c5_witness :
    (1 : Nat) ≤ 65535 ∧ (2 : Nat) ≤ 4294967295 ∧
      KVRecord.read_one
          (WriteKVRecord.serialize
            { seq := 0, op := OP_SET, key := [107], value := [118, 49] }) =
        .ok (some ({ key := [107], value := [118, 49] }, [])) :=
  ⟨by decide, by decide,
    c5_serialize_read_roundtrip 0 [107] [118, 49] (by decide) (by decide)⟩

/-- Counterexample to claim C1: a well-formed 16 byte header declaring a 3
byte key followed by only one body byte is not rejected; KVRecord::read_one
returns a successfully decoded record whose key is the single byte that was
present. -/
theorem c1_counterexample :
    KVRecord.read_one
        [119, 0, 0, 0, 0, 1, 0, 3, 0, 0, 0, 0, 0, 0, 0, 0, 42] =
      .ok (some ({ key := [42], value := [] }, [])) := rfl

/-- Claim C1 (amended): for every input stream holding a well-formed 16
byte record header followed by fewer body bytes than the declared keylen
plus valuelen, KVRecord::read_one does not fail: it returns a successfully
decoded record whose key and value are the truncated prefixes actually
present (strictly shorter in total than declared), because the body is
read with read_to_end on a take adaptor and no length check follows. -/
theorem c1_truncated_body_decoded (s1 s2 s3 s4 k1 k2 v1 v2 v3 v4 : Nat)
    (rest : List Nat)
    (h : rest.length < u16_be k1 k2 + u32_be v1 v2 v3 v4) :
    KVRecord.read_one (MAGIC :: s1 :: s2 :: s3 :: s4 :: OP_SET :: k1 :: k2 ::
        v1 :: v2 :: v3 :: v4 :: 0 :: 0 :: 0 :: 0 :: rest) =
      .ok (some ({ key := rest.take (u16_be k1 k2),
                   value := (rest.drop (u16_be k1 k2)).take (u32_be v1 v2 v3 v4) },
                 (rest.drop (u16_be k1 k2)).drop (u32_be v1 v2 v3 v4))) ∧
    (rest.take (u16_be k1 k2)).length +
        ((rest.drop (u16_be k1 k2)).take (u32_be v1 v2 v3 v4)).length <
      u16_be k1 k2 + u32_be v1 v2 v3 v4 := by
  constructor
  · simp only [KVRecord.read_one, MAGIC, OP_SET]
    norm_num [show u32_be 0 0 0 0 = 0 from rfl]
  · simp only [List.length_take, List.length_drop]
    omega

theorem c1_witness :
    ([42] : List Nat).length < u16_be 0 3 + u32_be 0 0 0 0 ∧
    (KVRecord.read_one (MAGIC :: 0 :: 0 :: 0 :: 0 :: OP_SET :: 0 :: 3 ::
        0 :: 0 :: 0 :: 0 :: 0 :: 0 :: 0 :: 0 :: [42]) =
      .ok (some ({ key := ([42] : List Nat).take (u16_be 0 3),
                   value := (([42] : List Nat).drop (u16_be 0 3)).take (u32_be 0 0 0 0) },
                 (([42] : List Nat).drop (u16_be 0 3)).drop (u32_be 0 0 0 0))) ∧
      (([42] : List Nat).take (u16_be 0 3)).length +
          ((([42] : List Nat).drop (u16_be 0 3)).take (u32_be 0 0 0 0)).length <
        u16_be 0 3 + u32_be 0 0 0 0) :=
  ⟨by decide, c1_truncated_body_decoded 0 0 0 0 0 3 0 0 0 0 [42] (by decide)⟩

/-- Counterexample to claim C2: a header with a wrong magic byte, a wrong
op code, or a non-zero pad makes reading fail via a fatal assertion (a
process panic in the source, modelled by the isPanic error values), not a
typed catchable FormatError. -/
theorem c2_counterexample :
    (KVRecord.read_one [120, 0, 0, 0, 0, 1, 0, 0, 0, 0, 0, 0, 0, 0, 0, 0] =
        .error .panicMagic ∧ WalErr.isPanic .panicMagic = true) ∧
    (KVRecord.read_one [119, 0, 0, 0, 0, 2, 0, 0, 0, 0, 0, 0, 0, 0, 0, 0] =
        .error .panicOp ∧ WalErr.isPanic .panicOp = true) ∧
    (KVRecord.read_one [119, 0, 0, 0, 0, 1, 0, 0, 0, 0, 0, 0, 0, 0, 0, 1] =
        .error .panicPad ∧ WalErr.isPanic .panicPad = true) ∧
    (WALRecord.read_one [120, 0, 0, 0, 0, 1] = .error .panicMagic) :=
  ⟨⟨rfl, rfl⟩, ⟨rfl, rfl⟩, ⟨rfl, rfl⟩, rfl⟩

/-- Claim C2 (amended): a complete 16 byte header whose magic byte is not
b w, whose op is not SET, or whose pad is non-zero makes KVRecord::read_one
fail and abort reading: the record is never silently skipped and never
decoded; but the failure is a fatal assertion (an uncatchable process
panic), not a typed catchable error. -/
theorem c2_bad_header_panics
    (m s1 s2 s3 s4 op k1 k2 v1 v2 v3 v4 p1 p2 p3 p4 : Nat) (rest : List Nat)
    (h : m ≠ MAGIC ∨ op ≠ OP_SET ∨ u32_be p1 p2 p3 p4 ≠ 0) :
    ∃ e : WalErr,
      KVRecord.read_one (m :: s1 :: s2 :: s3 :: s4 :: op :: k1 :: k2 ::
          v1 :: v2 :: v3 :: v4 :: p1 :: p2 :: p3 :: p4 :: rest) = .error e ∧
        e.isPanic = true := by
  by_cases h1 : m = MAGIC
  · by_cases h2 : op = OP_SET
    · have h3 : u32_be p1 p2 p3 p4 ≠ 0 := by
        rcases h with h | h | h <;> simp_all
      exact ⟨.panicPad,
        by simp [KVRecord.read_one, h1, h2, h3, WalErr.isPanic]⟩
    · exact ⟨.panicOp, by simp [KVRecord.read_one, h1, h2, WalErr.isPanic]⟩
  · exact ⟨.panicMagic, by simp [KVRecord.read_one, h1, WalErr.isPanic]⟩

theorem c2_witness :
    ((120 : Nat) ≠ MAGIC ∨ (1 : Nat) ≠ OP_SET ∨ u32_be 0 0 0 0 ≠ 0) ∧
    ∃ e : WalErr,
      KVRecord.read_one ((120 : Nat) :: 0 :: 0 :: 0 :: 0 :: 1 :: 0 :: 0 ::
          0 :: 0 :: 0 :: 0 :: 0 :: 0 :: 0 :: 0 :: []) = .error e ∧
        e.isPanic = true :=
  ⟨Or.inl (by decide),
    c2_bad_header_panics 120 0 0 0 0 1 0 0 0 0 0 0 0 0 0 0 []
      (Or.inl (by decide))⟩

theorem serialize_shape (seq op : Nat) (key value : List Nat) :
    (WriteKVRecord.serialize
        { seq := seq, op := op, key := key, value := value }).length =
      16 + key.length + value.length ∧
    ((WriteKVRecord.serialize
        { seq := seq, op := op, key := key, value := value }).drop 6).take 2 =
      [key.length % 65536 / 256, key.length % 256] ∧
    (WriteKVRecord.serialize
        { seq := seq, op := op, key := key, value := value }).drop 16 =
      key ++ value := by
  refine ⟨?_, ?_, ?_⟩ <;>
    simp [WriteKVRecord.serialize, to_be2, to_be4]
  · omega
  · omega

/-- Counterexample to claim C9: serializing a record whose key is 65536
zero bytes does not fail with an encoding fault; it silently produces a
buffer whose 2 byte keylen field holds 65536 mod 2^16 = 0 while all 65536
key bytes are appended. -/
theorem c9_counterexample :
    (WriteKVRecord.serialize
        { seq := 0, op := OP_SET, key := List.replicate 65536 0,
          value := [] }).length = 16 + 65536 ∧
    ((WriteKVRecord.serialize
        { seq := 0, op := OP_SET, key := List.replicate 65536 0,
          value := [] }).drop 6).take 2 = [0, 0] ∧
    (WriteKVRecord.serialize
        { seq := 0, op := OP_SET, key := List.replicate 65536 0,
          value := [] }).drop 16 = List.replicate 65536 0 := by
  have h := serialize_shape 0 OP_SET (List.replicate 65536 0) []
  refine ⟨?_, ?_, ?_⟩
  · rw [h.1, List.length_replicate, List.length_nil]
  · rw [h.2.1, List.length_replicate]
  · rw [h.2.2, List.append_nil]

/-- Claim C9 (amended): WriteKVRecord::serialize is total: it succeeds for
every key and value, including keys longer than 65535 bytes; the buffer
always has length 16 plus the body, the keylen field always holds the key
length reduced modulo 2^16 (so it is exact precisely when the key is at
most 65535 bytes), and all key and value bytes are appended. -/
theorem c9_serialize_total (seq op : Nat) (key value : List Nat) :
    (WriteKVRecord.serialize
        { seq := seq, op := op, key := key, value := value }).length =
      16 + key.length + value.length ∧
    ((WriteKVRecord.serialize
        { seq := seq, op := op, key := key, value := value }).drop 6).take 2 =
      [key.length % 65536 / 256, key.length % 256] ∧
    (WriteKVRecord.serialize
        { seq := seq, op := op, key := key, value := value }).drop 16 =
      key ++ value :=
  serialize_shape seq op key value

theorem find?_filter_ne (mt : Memtable) (k k2 : List Nat) (h : k2 ≠ k) :
    (mt.filter (fun kv => decide (kv.1 ≠ k))).find?
        (fun kv => decide (kv.1 = k2)) =
      mt.find? (fun kv => decide (kv.1 = k2)) := by
  induction mt with
  | nil => rfl
  | cons kv t ih =>
    by_cases h1 : kv.1 = k
    · rw [List.filter_cons_of_neg (by simp [h1]),
        List.find?_cons_of_neg _ (by simp [h1]; exact fun he => h he.symm)]
      exact ih
    · rw [List.filter_cons_of_pos (by simp [h1])]
      by_cases h2 : kv.1 = k2
      · rw [List.find?_cons_of_pos _ (by simp [h2]),
          List.find?_cons_of_pos _ (by simp [h2])]
      · rw [List.find?_cons_of_neg _ (by simp [h2]),
          List.find?_cons_of_neg _ (by simp [h2])]
        exact ih

theorem Memtable_get_insert (mt : Memtable) (k v k2 : List Nat) :
    Memtable.get (Memtable.insert mt k v) k2 =
      if k2 = k then some v else Memtable.get mt k2 := by
  unfold Memtable.get Memtable.insert
  by_cases h : k2 = k
  · subst h
    rw [List.find?_cons_of_pos _ (by simp)]
    simp
  · rw [List.find?_cons_of_neg _ (by simp; exact fun he => h he.symm)]
    rw [find?_filter_ne mt k k2 h]
    simp [h]

theorem lastWrittenValue_acc (t : List (List Nat × List Nat)) (k : List Nat)
    (acc : Option (List Nat)) :
    t.foldl (fun a kv => if kv.1 = k then some kv.2 else a) acc =
      (t.foldl (fun a kv => if kv.1 = k then some kv.2 else a) none).elim
        acc some := by
  induction t generalizing acc with
  | nil => rfl
  | cons kv t ih =>
    simp only [List.foldl_cons]
    rw [ih (if kv.1 = k then some kv.2 else acc),
      ih (if kv.1 = k then some kv.2 else none)]
    cases t.foldl (fun a kv => if kv.1 = k then some kv.2 else a) none <;>
      by_cases h : kv.1 = k <;> simp [h, Option.elim]

theorem get_mtInsertAll (kvs : List (List Nat × List Nat)) (mt : Memtable)
    (k : List Nat) :
    Memtable.get (mtInsertAll mt kvs) k =
      (lastWrittenValue kvs k).elim (Memtable.get mt k) some := by
  induction kvs generalizing mt with
  | nil => rfl
  | cons kv t ih =>
    have ih2 := ih (Memtable.insert mt kv.1 kv.2)
    simp only [mtInsertAll, lastWrittenValue, List.foldl_cons] at ih2 ⊢
    rw [ih2, lastWrittenValue_acc t k (if kv.1 = k then some kv.2 else none),
      Memtable_get_insert]
    cases t.foldl (fun a kv => if kv.1 = k then some kv.2 else a) none with
    | none =>
      by_cases h : kv.1 = k
      · simp [h, Option.elim]
      · have h2 : ¬ k = kv.1 := fun he => h he.symm
        simp [h, h2, Option.elim]
    | some v => simp [Option.elim]

/-- Claim C3: at any position of the record loop of WAL::replay, a decoded
record whose sequence number differs from the expected next sequence makes
the loop return BadWALSeq carrying both expected and actual, and a replay
that starts at that expected sequence returns the same error, aborting
recovery. -/
theorem c3_sequence_mismatch_aborts (s rest : List Nat) (wr : WALRecord)
    (n w c : Nat) (mt : Memtable)
    (hr : WALRecord.read_one s = .ok (some (wr, rest)))
    (hne : wr.seq ≠ n) :
    replayLoop s n w c mt = .error (.badWALSeq n wr.seq) ∧
    ∀ w0 : WAL, w0.f = false → w0.nextseq = n →
      WAL.replay w0 s = .error (.badWALSeq n wr.seq) := by
  have hloop : ∀ (w2 c2 : Nat) (mt2 : Memtable),
      replayLoop s n w2 c2 mt2 = .error (.badWALSeq n wr.seq) := by
    intro w2 c2 mt2
    rw [replayLoop_eq_some s rest wr n w2 c2 mt2 hr, if_pos hne]
  refine ⟨hloop w c mt, ?_⟩
  intro w0 hf hn
  unfold WAL.replay
  rw [if_neg (by simp [hf])]
  rw [hn, hloop w0.wal_writes 0 []]

theorem c3_witness :
    (WALRecord.read_one
        [119, 0, 0, 0, 5, 1, 119, 0, 1, 0, 0, 0, 1, 0, 0, 0, 0, 1, 2] =
      .ok (some ({ seq := 5, op := 1, key := [1], value := [2] }, []))) ∧
    (5 : Nat) ≠ 0 ∧
    replayLoop [119, 0, 0, 0, 5, 1, 119, 0, 1, 0, 0, 0, 1, 0, 0, 0, 0, 1, 2]
        0 0 0 [] = .error (.badWALSeq 0 5) ∧
    WAL.replay (WAL.new WALSync.Full)
        [119, 0, 0, 0, 5, 1, 119, 0, 1, 0, 0, 0, 1, 0, 0, 0, 0, 1, 2] =
      .error (.badWALSeq 0 5) := by
  have h := c3_sequence_mismatch_aborts
    [119, 0, 0, 0, 5, 1, 119, 0, 1, 0, 0, 0, 1, 0, 0, 0, 0, 1, 2] []
    { seq := 5, op := 1, key := [1], value := [2] } 0 0 0 [] rfl
    (by decide)
  exact ⟨rfl, by decide, h.1, h.2 (WAL.new WALSync.Full) rfl rfl⟩

/-- Claim C4: after N successful writes on a WAL whose next-sequence
started at 0 (the fresh state), the log file holds envelope records whose
sequences are exactly 0, 1, ..., N-1 in order (walFileFrom 0), and a fresh
Manager replaying that file on the same path succeeds, accepts exactly N
entries and leaves next-sequence = N. -/
theorem c4_write_then_replay (sync sync2 : WALSync)
    (kvs : List (List Nat × List Nat))
    (hb : ∀ kv ∈ kvs, (kv.1 : List Nat).length ≤ 65535 ∧
      (kv.2 : List Nat).length ≤ 4294967295)
    (hn : kvs.length ≤ 4294967296) :
    WAL.writeAll (WAL.fresh sync) [] kvs =
      (.ok (), { f := true, sync := sync, nextseq := kvs.length,
                 wal_writes := kvs.length }, walFileFrom 0 kvs) ∧
    WAL.replay (WAL.new sync2) (walFileFrom 0 kvs) =
      .ok (mtInsertAll [] kvs,
        { f := true, sync := sync2, nextseq := kvs.length,
          wal_writes := kvs.length }) := by
  constructor
  · have h := writeAll_ok kvs sync 0 0 []
    simpa [WAL.fresh] using h
  · unfold WAL.replay
    rw [if_neg (by simp [WAL.new])]
    simp only [WAL.new]
    rw [replayLoop_walFileFrom kvs 0 0 0 [] hb (by omega)]
    simp

theorem c4_witness :
    (∀ kv ∈ ([([1], [10]), ([2], [20])] : List (List Nat × List Nat)),
      (kv.1 : List Nat).length ≤ 65535 ∧
        (kv.2 : List Nat).length ≤ 4294967295) ∧
    WAL.writeAll (WAL.fresh WALSync.Full) [] [([1], [10]), ([2], [20])] =
      (.ok (), { f := true, sync := WALSync.Full, nextseq := 2,
                 wal_writes := 2 },
        walFileFrom 0 [([1], [10]), ([2], [20])]) ∧
    WAL.replay (WAL.new WALSync.Default)
        (walFileFrom 0 [([1], [10]), ([2], [20])]) =
      .ok (mtInsertAll [] [([1], [10]), ([2], [20])],
        { f := true, sync := WALSync.Default, nextseq := 2,
          wal_writes := 2 }) := by
  have h := c4_write_then_replay WALSync.Full WALSync.Default
    [([1], [10]), ([2], [20])] (by decide) (by decide)
  exact ⟨by decide, h.1, h.2⟩

/-- Claim C6: last-writer-wins: replaying the log produced by a sequence
of writes yields an index that maps each key to the value of the write
with the largest sequence number, which is the last write for that key in
list order (lastWrittenValue); in particular two successive writes to the
same key leave the second value. -/
theorem c6_last_writer_wins (sync sync2 : WALSync)
    (kvs : List (List Nat × List Nat)) (k : List Nat)
    (hb : ∀ kv ∈ kvs, (kv.1 : List Nat).length ≤ 65535 ∧
      (kv.2 : List Nat).length ≤ 4294967295)
    (hn : kvs.length ≤ 4294967296) :
    WAL.replay (WAL.new sync2) ((WAL.writeAll (WAL.fresh sync) [] kvs).2.2) =
      .ok (mtInsertAll [] kvs,
        { f := true, sync := sync2, nextseq := kvs.length,
          wal_writes := kvs.length }) ∧
    Memtable.get (mtInsertAll [] kvs) k = lastWrittenValue kvs k := by
  constructor
  · have hfile : (WAL.writeAll (WAL.fresh sync) [] kvs).2.2 =
        walFileFrom 0 kvs := by
      show (WAL.writeAll { f := true, sync := sync, nextseq := 0, wal_writes := 0 } [] kvs).2.2 = _
      rw [writeAll_ok kvs sync 0 0 []]
      simp
    rw [hfile]
    unfold WAL.replay
    rw [if_neg (by simp [WAL.new])]
    simp only [WAL.new]
    rw [replayLoop_walFileFrom kvs 0 0 0 [] hb (by omega)]
    simp
  · rw [get_mtInsertAll]
    cases lastWrittenValue kvs k <;>
      simp [Memtable.get, Option.elim, List.find?]

theorem c6_witness :
    (∀ kv ∈ ([([107], [118, 49]), ([107], [118, 50])] :
        List (List Nat × List Nat)),
      (kv.1 : List Nat).length ≤ 65535 ∧
        (kv.2 : List Nat).length ≤ 4294967295) ∧
    WAL.replay (WAL.new WALSync.Full)
        ((WAL.writeAll (WAL.fresh WALSync.Full) []
          [([107], [118, 49]), ([107], [118, 50])]).2.2) =
      .ok (mtInsertAll [] [([107], [118, 49]), ([107], [118, 50])],
        { f := true, sync := WALSync.Full, nextseq := 2, wal_writes := 2 }) ∧
    Memtable.get (mtInsertAll [] [([107], [118, 49]), ([107], [118, 50])])
        [107] = lastWrittenValue
          [([107], [118, 49]), ([107], [118, 50])] [107] ∧
    lastWrittenValue [([107], [118, 49]), ([107], [118, 50])] [107] =
      some [118, 50] := by
  have h := c6_last_writer_wins WALSync.Full WALSync.Full
    [([107], [118, 49]), ([107], [118, 50])] [107] (by decide) (by decide)
  exact ⟨by decide, h.1, h.2, by decide⟩

/-- Claim C7: WAL::write advances next-sequence by exactly 1 when and only
when it returns success; on any error (bad state, failed append, failed
sync) next-sequence is unchanged, so a retried write is assigned the same
sequence number. -/
theorem c7_nextseq_only_on_success (w : WAL) (file key value : List Nat)
    (env : WriteEnv) :
    ((WAL.write w file key value env).1 = .ok () →
      (WAL.write w file key value env).2.1.nextseq = w.nextseq + 1) ∧
    ((WAL.write w file key value env).1 ≠ .ok () →
      (WAL.write w file key value env).2.1.nextseq = w.nextseq) := by
  rcases w with ⟨f, sync, n, ww⟩
  rcases env with ⟨a, s⟩
  cases f <;> cases a <;> cases s <;> cases sync <;>
    simp [WAL.write]

theorem c7_witness :
    (WAL.write { f := true, sync := WALSync.Full, nextseq := 4, wal_writes := 7 }
      [] [1] [2] { appendOk := true, syncOk := true }).2.1.nextseq = 4 + 1 ∧
    (WAL.write { f := true, sync := WALSync.Full, nextseq := 4, wal_writes := 7 }
      [] [1] [2] { appendOk := true, syncOk := false }).2.1.nextseq = 4 :=
  ⟨(c7_nextseq_only_on_success
      { f := true, sync := WALSync.Full, nextseq := 4, wal_writes := 7 }
      [] [1] [2] { appendOk := true, syncOk := true }).1 rfl,
   (c7_nextseq_only_on_success
      { f := true, sync := WALSync.Full, nextseq := 4, wal_writes := 7 }
      [] [1] [2] { appendOk := true, syncOk := false }).2
     (by intro h; simp [WAL.write] at h)⟩

/-- Claim C8: write() or reset() on a Manager without an open handle
(before a successful replay) fails with the bad-state error and leaves the
Manager state and the file unchanged; replay() on a Manager whose handle
is already open fails with the bad-state error. -/
theorem c8_bad_state (w : WAL) (file key value : List Nat) (env : WriteEnv)
    (ioOk : Bool) :
    (w.f = false →
      WAL.write w file key value env = (.error .badWALState, w, file) ∧
      WAL.reset w file ioOk = (.error .badWALState, w, file)) ∧
    (w.f = true → WAL.replay w file = .error .badWALState) := by
  refine ⟨fun hf => ⟨?_, ?_⟩, fun hf => ?_⟩
  · unfold WAL.write
    rw [if_pos hf]
  · unfold WAL.reset
    rw [if_pos hf]
  · unfold WAL.replay
    rw [if_pos hf]

theorem c8_witness :
    (WAL.write (WAL.new WALSync.Full) [] [1] [2]
        { appendOk := true, syncOk := true } =
      (.error .badWALState, WAL.new WALSync.Full, []) ∧
     WAL.reset (WAL.new WALSync.Full) [] true =
      (.error .badWALState, WAL.new WALSync.Full, [])) ∧
    WAL.replay (WAL.fresh WALSync.Full) [] = .error .badWALState :=
  ⟨(c8_bad_state (WAL.new WALSync.Full) [] [1] [2]
      { appendOk := true, syncOk := true } true).1 rfl,
   (c8_bad_state (WAL.fresh WALSync.Full) [] [1] [2]
      { appendOk := true, syncOk := true } true).2 rfl⟩

/-- Claim C10: the replay loop increments wal_writes once per accepted
record: a fresh Manager, whose wal_writes starts at 0 and on which no
write() was called, ends a successful replay of a log of N valid entries
with wal_writes = N. -/
theorem c10_replay_counts_writes (sync : WALSync)
    (kvs : List (List Nat × List Nat))
    (hb : ∀ kv ∈ kvs, (kv.1 : List Nat).length ≤ 65535 ∧
      (kv.2 : List Nat).length ≤ 4294967295)
    (hn : kvs.length ≤ 4294967296) :
    (WAL.new sync).wal_writes = 0 ∧
    WAL.replay (WAL.new sync) (walFileFrom 0 kvs) =
      .ok (mtInsertAll [] kvs,
        { f := true, sync := sync, nextseq := kvs.length,
          wal_writes := kvs.length }) := by
  refine ⟨rfl, ?_⟩
  unfold WAL.replay
  rw [if_neg (by simp [WAL.new])]
  simp only [WAL.new]
  rw [replayLoop_walFileFrom kvs 0 0 0 [] hb (by omega)]
  simp

theorem c10_witness :
    (∀ kv ∈ ([([3], [30])] : List (List Nat × List Nat)),
      (kv.1 : List Nat).length ≤ 65535 ∧
        (kv.2 : List Nat).length ≤ 4294967295) ∧
    (WAL.new WALSync.Default).wal_writes = 0 ∧
    WAL.replay (WAL.new WALSync.Default) (walFileFrom 0 [([3], [30])]) =
      .ok (mtInsertAll [] [([3], [30])],
        { f := true, sync := WALSync.Default, nextseq := 1,
          wal_writes := 1 }) := by
  have h := c10_replay_counts_writes WALSync.Default [([3], [30])]
    (by decide) (by decide)
  exact ⟨by decide, h.1, h.2⟩

end ToyKV
